import Mathlib

/-!
Shallow embedding of the xml-combiner repository (src/xml_combiner.py and
src/main.py), written so each definition mirrors one Python function.

Modelling notes.

An XML element is modelled with its tag, its attribute list in document
order, its optional text, and its ordered children.  Source files carry
their elements as written; the parse primitive models ElementTree
faithfully in the one respect that matters here: ElementTree strips
namespace declarations (attributes named "xmlns" or "xmlns:p") from
`attrib` during parsing, so `_register_namespaces` never sees a genuine
declaration — only ordinary attributes whose literal name happens to begin
with "xmlns" (such as "xmlns_ns1") survive and reach it.  ElementTree's
rewriting of tags into Clark notation is not modelled, since every claim
treats tags as opaque strings.

The `ET.register_namespace(prefix, uri)` call on lines 122/133 raises
`ValueError` ("Prefix format reserved for internal use") whenever the
prefix matches `ns` followed by digits only, and it does so *after*
`self.namespace_map[prefix] = uri` has run; the exception propagates out of
`_register_namespaces` into the retry loop's generic handler.  Registration
is therefore modelled as a fallible function whose error value carries the
namespace map as mutated up to the raise.  Its successful global side
effect (the serializer's prefix table) is not modelled; no claim observes
it.

A source file is modelled by the list of its top-level elements together
with a flag saying whether its bytes fail to scan at all.  The two parse
primitives the code uses then have these semantics:

* `ET.parse` succeeds exactly on a well-formed single-root file, returning
  that root; on zero roots ("no element found"), several roots ("junk after
  document element") or scan failure it raises `ParseError`.
* the SAX pre-pass (`xml.sax` over expat) succeeds under exactly the same
  condition: on a second top-level element expat raises before the handler
  can record it, so `len(handler.roots) > 1` on line 211 of xml_combiner.py
  is never reached, and every SAX exception falls through (line 260) to the
  standard single-root parse on line 265.  Were the multi-root branch ever
  entered, its own `ET.parse` attempts would raise again (several roots) and
  its `iterparse` fallback calls `elem.getparent()`, a method that
  `xml.etree` elements do not have, so the resulting `AttributeError` is
  caught on line 260 and control still lands on the standard parse within
  the same retry attempt; the branch body is therefore modelled by the
  standard parse it falls through to.

The filesystem is modelled by a directory tree carrying file names and
subdirectories, and a content map from paths to parsed files.  Python's
`sorted` over `Path` values compares the tuple of path components, which is
the lexicographic order on lists of strings used here.
-/

namespace XmlCombiner

/-- XML element as manipulated by xml_combiner.py: tag, attributes in
document order, optional text, ordered children. -/
inductive Element where
  | mk (tag : String) (attrib : List (String × String)) (text : Option String)
      (children : List Element)

def Element.tag : Element → String
  | .mk t _ _ _ => t

def Element.attrib : Element → List (String × String)
  | .mk _ a _ _ => a

def Element.text : Element → Option String
  | .mk _ _ x _ => x

def Element.children : Element → List Element
  | .mk _ _ _ c => c

/-- One source file: its top-level elements (in order) and whether its bytes
fail to scan as XML at all. -/
structure XMLFile where
  roots : List Element
  malformed : Bool

/-- Configuration of an `XMLCombiner` instance (constructor arguments,
xml_combiner.py lines 62-76).  `validateSchema = some b` models a schema
path being configured, with `b` saying whether that path exists on disk. -/
structure Config where
  rootElementName : String
  recursive : Bool
  validateSchema : Option Bool
  deduplicate : Bool
  preserveStructure : Bool
  maxRetries : Int

/-- The mutable state of an `XMLCombiner` (xml_combiner.py lines 78-82):
children of the combined root, the fingerprint set (`seen_elements`, a set
modelled as a duplicate-free list in insertion order), the namespace map
(`namespace_map`, a dict modelled as an association list in insertion
order), and the two per-run counters. -/
structure CombinerState where
  rootChildren : List Element
  seenElements : List String
  nsMap : List (String × String)
  processedFiles : Nat
  failedFiles : Nat

/-- Fresh state as built by `XMLCombiner.__init__`. -/
def initState : CombinerState :=
  { rootChildren := [], seenElements := [], nsMap := [], processedFiles := 0,
    failedFiles := 0 }

/-- Attribute names that are namespace declarations: the default
declaration "xmlns" and prefixed declarations "xmlns:p".  ElementTree
removes exactly these from `attrib` while parsing. -/
def isNsDecl (k : String) : Bool :=
  k == "xmlns" || k.toList.take 6 == "xmlns:".toList

mutual
/-- ElementTree's stripping of namespace declarations from every element of
a parsed tree: declaration attributes are removed, everything else (tag
treated as opaque, text, children order) is kept. -/
def stripNsDecls : Element → Element
  | .mk t a x c =>
      .mk t (a.filter (fun kv => !isNsDecl kv.1)) x (stripNsDeclsList c)
def stripNsDeclsList : List Element → List Element
  | [] => []
  | e :: rest => stripNsDecls e :: stripNsDeclsList rest
end

/-- Semantics of `ET.parse`: succeeds exactly on a well-formed single-root
file, returning the root with namespace declarations stripped from the
whole tree (as ElementTree delivers it). -/
def etParse (f : XMLFile) : Option Element :=
  if f.malformed then none
  else
    match f.roots with
    | [r] => some (stripNsDecls r)
    | _ => none

/-- Semantics of the SAX pre-pass (lines 204-210): expat accepts exactly
the well-formed single-root files; on any other input it raises before a
second root could be recorded by the handler. -/
def saxParse (f : XMLFile) : Option (List Element) :=
  if f.malformed then none
  else
    match f.roots with
    | [r] => some [r]
    | _ => none

/-- Python dict assignment `m[k] = v`: replace the value at an existing key
in place, otherwise append the new binding. -/
def dictInsert (m : List (String × String)) (k v : String) :
    List (String × String) :=
  if m.any (fun p => p.1 == k) then
    m.map (fun p => if p.1 == k then (k, v) else p)
  else m ++ [(k, v)]

/-- Keys carrying a namespace declaration, per lines 115-119: the attribute
key must start with "xmlns"; the key "xmlns" itself binds the default
namespace (written ""), any other such key has its first six characters
removed (`prefix[6:]`).  The two Python string primitives are modelled on
the character list: `startswith` is a list-take comparison and the slice is
a list drop. -/
def xmlnsKey (k : String) : Option String :=
  if k.toList.take 5 == "xmlns".toList then
    some (if k == "xmlns" then "" else String.mk (k.toList.drop 6))
  else none

/-- Prefixes reserved by `ET.register_namespace`: `re.match("ns\d+$", p)`,
i.e. "ns" followed by one or more digits and nothing else. -/
def isReservedPrefix (p : String) : Bool :=
  match p.toList with
  | 'n' :: 's' :: rest =>
      !rest.isEmpty &&
        rest.all (fun c => decide (48 ≤ c.toNat) && decide (c.toNat ≤ 57))
  | _ => false

/-- One iteration of the attribute loops of `_register_namespaces` (lines
114-122 and 125-133): a binding is considered only when its URI is not
already among the values of the namespace map; then the dict write of line
121/132 runs, and the `ET.register_namespace` call of line 122/133 raises
`ValueError` when the derived prefix is reserved (`ns` plus digits) — the
error value carries the already-mutated map. -/
def registerOne (m : List (String × String)) (kv : String × String) :
    Except (List (String × String)) (List (String × String)) :=
  match xmlnsKey kv.1 with
  | none => .ok m
  | some pfx =>
      if (m.map Prod.snd).contains kv.2 then .ok m
      else
        let m1 := dictInsert m pfx kv.2
        if isReservedPrefix pfx then .error m1 else .ok m1

/-- A `for` loop of `registerOne` steps: the first raise aborts the rest of
the loop. -/
def registerAttrs (m : List (String × String)) :
    List (String × String) →
      Except (List (String × String)) (List (String × String))
  | [] => .ok m
  | kv :: rest =>
      match registerOne m kv with
      | .ok m1 => registerAttrs m1 rest
      | .error m1 => .error m1

mutual
/-- Document-order traversal of `element.iter()`: the element itself first,
then every descendant in preorder. -/
def iterNodes : Element → List Element
  | .mk t a x c => .mk t a x c :: iterNodesList c
def iterNodesList : List Element → List Element
  | [] => []
  | e :: rest => iterNodes e ++ iterNodesList rest
end

/-- The second loop of `_register_namespaces` (lines 124-133), over the
nodes yielded by `element.iter()`; a raise aborts the remaining nodes. -/
def registerNodes (m : List (String × String)) :
    List Element →
      Except (List (String × String)) (List (String × String))
  | [] => .ok m
  | n :: rest =>
      match registerAttrs m n.attrib with
      | .ok m1 => registerNodes m1 rest
      | .error m1 => .error m1

/-- `XMLCombiner._register_namespaces` (lines 112-133): first the element's
own attributes, then the attributes of every node yielded by
`element.iter()` (which yields the element itself again, first); a
`ValueError` from `ET.register_namespace` propagates to the caller with the
map as mutated so far. -/
def registerNamespaces (e : Element) (m : List (String × String)) :
    Except (List (String × String)) (List (String × String)) :=
  match registerAttrs m e.attrib with
  | .error m1 => .error m1
  | .ok m1 => registerNodes m1 (iterNodes e)

/-- Python string comparison (strict): lexicographic on code points. -/
def charListLt : List Char → List Char → Bool
  | [], [] => false
  | [], _ :: _ => true
  | _ :: _, [] => false
  | a :: as, b :: bs =>
      decide (a.toNat < b.toNat) || (a == b && charListLt as bs)

def strLt (s t : String) : Bool := charListLt s.toList t.toList

def strLe (s t : String) : Bool := s == t || strLt s t

/-- Lexicographic order on attribute pairs, as Python's tuple comparison
used by `sorted(elem.attrib.items())`. -/
def pairLe (p q : String × String) : Bool :=
  strLt p.1 q.1 || (p.1 == q.1 && strLe p.2 q.2)

def insertPair (p : String × String) :
    List (String × String) → List (String × String)
  | [] => [p]
  | q :: rest => if pairLe p q then p :: q :: rest else q :: insertPair p rest

/-- Ascending sort of the attribute pairs, modelling
`sorted(elem.attrib.items())` on line 139. -/
def sortAttrs : List (String × String) → List (String × String)
  | [] => []
  | p :: rest => insertPair p (sortAttrs rest)

mutual
/-- Canonical content string built by `element_to_string` inside
`_get_element_hash` (lines 137-143): the part `tag:text-or-empty`, then one
part `key=value` per attribute in sorted order, then the canonical string of
each child in order, all joined with "|". -/
def elementToString : Element → String
  | .mk t a x c =>
      String.intercalate "|" ((t ++ ":" ++ x.getD "") ::
        ((sortAttrs a).map (fun p => p.1 ++ "=" ++ p.2) ++ childStrings c))
def childStrings : List Element → List String
  | [] => []
  | e :: rest => elementToString e :: childStrings rest
end

/-- `XMLCombiner._get_element_hash` (lines 135-146).  The Python code
applies MD5 to the canonical string; since MD5 is a function of that string,
fingerprint equality is modelled by equality of the canonical strings
themselves (MD5's own collisions are outside the model). -/
def getElementHash (e : Element) : String := elementToString e

mutual
/-- Structural identity of two elements as the specification describes a
duplicate: same tag, same text with absent text identified with the empty
string (the code hashes `elem.text or ''`), same attributes up to order
(equal sorted attribute lists), and recursively identical children, in
order. -/
def sameContent : Element → Element → Bool
  | .mk t1 a1 x1 c1, .mk t2 a2 x2 c2 =>
      t1 == t2 && (x1.getD "" == x2.getD "") &&
        (sortAttrs a1 == sortAttrs a2) && sameContentList c1 c2
def sameContentList : List Element → List Element → Bool
  | [], [] => true
  | e1 :: r1, e2 :: r2 => sameContent e1 e2 && sameContentList r1 r2
  | _, _ => false
end

/-- Value bound to a prefix in the namespace map (dict lookup). -/
def lookupNs (m : List (String × String)) (pfx : String) : Option String :=
  (m.find? (fun q => q.1 == pfx)).map Prod.snd

/-- Membership in the Python set `seen_elements`. -/
def seenContains (seen : List String) (h : String) : Bool := seen.contains h

/-- Addition to the Python set `seen_elements`; only ever called when the
hash is absent, so an append keeps the list duplicate-free. -/
def seenAdd (seen : List String) (h : String) : List String := seen ++ [h]

/-- `XMLCombiner._add_element_with_structure` (lines 169-179): the
duplicate check returns early; otherwise the fingerprint is recorded first
(line 176), then `_register_namespaces` runs (line 178) — a raise there
escapes with the fingerprint already added and the map partially mutated —
and only then is the element appended (line 179). -/
def addElementWithStructure (cfg : Config) (st : CombinerState)
    (e : Element) : Except CombinerState CombinerState :=
  if cfg.deduplicate && seenContains st.seenElements (getElementHash e) then
    .ok st
  else
    let st1 :=
      if cfg.deduplicate then
        { st with seenElements := seenAdd st.seenElements (getElementHash e) }
      else st
    match registerNamespaces e st1.nsMap with
    | .error m1 => .error { st1 with nsMap := m1 }
    | .ok m1 =>
        .ok { st1 with nsMap := m1,
                       rootChildren := st1.rootChildren ++ [e] }

/-- Body of the per-child loop of `_add_element_children` (lines 184-192):
skip a duplicate child when deduplicating, otherwise record its fingerprint
(when deduplicating) and append the child to the combined root. -/
def addChildStep (cfg : Config) (acc : CombinerState) (c : Element) :
    CombinerState :=
  if cfg.deduplicate && seenContains acc.seenElements (getElementHash c) then
    acc
  else
    let acc1 :=
      if cfg.deduplicate then
        { acc with seenElements := seenAdd acc.seenElements (getElementHash c) }
      else acc
    { acc1 with rootChildren := acc1.rootChildren ++ [c] }

/-- `XMLCombiner._add_element_children` (lines 181-192):
`_register_namespaces` runs first (line 183) — a raise there escapes before
any child is appended — then the per-child loop, whose body raises
nothing. -/
def addElementChildren (cfg : Config) (st : CombinerState)
    (e : Element) : Except CombinerState CombinerState :=
  match registerNamespaces e st.nsMap with
  | .error m1 => .error { st with nsMap := m1 }
  | .ok m1 =>
      .ok (e.children.foldl (addChildStep cfg) { st with nsMap := m1 })

/-- Keys that cannot reach namespace registration: names not beginning with
the five characters "xmlns". -/
def ordinaryKey (k : String) : Bool :=
  !(k.toList.take 5 == "xmlns".toList)

mutual
/-- All attribute names of the element and its descendants are ordinary
(none begins with "xmlns"), so registration finds nothing to do. -/
def attrsOrdinary : Element → Bool
  | .mk _ a _ c =>
      a.all (fun kv => ordinaryKey kv.1) && attrsOrdinaryList c
def attrsOrdinaryList : List Element → Bool
  | [] => true
  | e :: rest => attrsOrdinary e && attrsOrdinaryList rest
end

mutual
/-- Every attribute of the element and its descendants is either a genuine
namespace declaration (which ElementTree strips at parse time) or an
ordinary name not beginning with "xmlns": the common shape of real
documents, excluding only literal attribute names such as "xmlns_ns1". -/
def genuineOnly : Element → Bool
  | .mk _ a _ c =>
      a.all (fun kv => isNsDecl kv.1 || ordinaryKey kv.1) && genuineOnlyList c
def genuineOnlyList : List Element → Bool
  | [] => true
  | e :: rest => genuineOnly e && genuineOnlyList rest
end

/-- `XMLCombiner._validate_xml` (lines 148-166): no schema configured, or a
configured schema path that does not exist, passes; otherwise the file must
parse (only well-formedness is checked). -/
def validateXml (cfg : Config) (f : XMLFile) : Bool :=
  match cfg.validateSchema with
  | none => true
  | some pathOnDisk =>
      if !pathOnDisk then true
      else (etParse f).isSome

/-- The standard single-root parse-and-merge (lines 264-277): parse, call
`_register_namespaces` on the root (line 269), then hand the root to the
merger for the configured structural mode.  `.error s` models the attempt
raising (`ParseError` on a failed parse — before any mutation — or
`ValueError` out of registration — after its dict writes), with `s` the
state the exception leaves behind. -/
def stdParse (cfg : Config) (st : CombinerState) (f : XMLFile) :
    Except CombinerState CombinerState :=
  match etParse f with
  | none => .error st
  | some root =>
      match registerNamespaces root st.nsMap with
      | .error m1 => .error { st with nsMap := m1 }
      | .ok m1 =>
          let st1 := { st with nsMap := m1 }
          if cfg.preserveStructure then addElementWithStructure cfg st1 root
          else addElementChildren cfg st1 root

/-- One iteration of the retry loop body (lines 202-292).  Per the file
header: the SAX pre-pass accepts exactly the single-root files, so the
multi-root branch guard on line 211 never holds, a SAX failure falls through
to the standard parse, and the dead branch body itself reduces to the same
standard parse via the exception cascade caught on line 260. -/
def singleAttempt (cfg : Config) (st : CombinerState) (f : XMLFile) :
    Except CombinerState CombinerState :=
  match saxParse f with
  | some roots =>
      if roots.length > 1 then stdParse cfg st f
      else stdParse cfg st f
  | none => stdParse cfg st f

/-- The retry loop `for attempt in range(self.max_retries)` (lines
201-294), with the remaining attempt budget as fuel.  Returns the success
flag, the resulting state, and the number of attempts actually made.  A
raising attempt leaves its mutations behind: the next attempt continues
from the state the exception left (`self` is shared), and an exhausted
budget falls off the loop and returns failure (line 294). -/
def attemptLoop (cfg : Config) (f : XMLFile) :
    CombinerState → Nat → Bool × CombinerState × Nat
  | st, 0 => (false, st, 0)
  | st, n + 1 =>
      match singleAttempt cfg st f with
      | .ok st' => (true, st', 1)
      | .error st1 =>
          let r := attemptLoop cfg f st1 n
          (r.1, r.2.1, r.2.2 + 1)

/-- `XMLCombiner._process_xml_file` (lines 194-294): a validation failure
returns failure at once (not retried); otherwise the retry loop runs
`range(self.max_retries)` times, which is `max_retries` clamped at zero. -/
def processXmlFile (cfg : Config) (st : CombinerState) (f : XMLFile) :
    Bool × CombinerState × Nat :=
  if validateXml cfg f then attemptLoop cfg f st cfg.maxRetries.toNat
  else (false, st, 0)

/-- The per-file loop of `combine_xml_files` (lines 308-313): each file
increments exactly one of the two counters. -/
def processAll (cfg : Config) : CombinerState → List XMLFile → CombinerState
  | st, [] => st
  | st, f :: rest =>
      let r := processXmlFile cfg st f
      let st' :=
        if r.1 then
          { r.2.1 with processedFiles := r.2.1.processedFiles + 1 }
        else { r.2.1 with failedFiles := r.2.1.failedFiles + 1 }
      processAll cfg st' rest

/-- `XMLCombiner.combine_xml_files` (lines 296-319), given the discovered
files' parsed contents in discovery order.  Path validation (lines 297-298)
is a filesystem precondition outside the model; an empty discovery returns
failure before processing (lines 301-303), counters are reset (lines
305-306), and the result is `processed_files > 0`. -/
def combineXmlFiles (cfg : Config) (files : List XMLFile) :
    Bool × CombinerState :=
  if files.isEmpty then (false, initState)
  else
    let st := processAll cfg initState files
    (decide (0 < st.processedFiles), st)

/-- Directory tree: immediate file names and named subdirectories. -/
inductive DirTree where
  | node (files : List String) (subdirs : List (String × DirTree))

def DirTree.files : DirTree → List String
  | .node fs _ => fs

def DirTree.subdirs : DirTree → List (String × DirTree)
  | .node _ sd => sd

/-- The name filter on line 100 and line 106:
`filename.lower().endswith('.xml')`, modelled on the character list: the
lowercased characters of the name must end with the characters of
".xml". -/
def isXmlName (name : String) : Bool :=
  List.isSuffixOf ".xml".toList (name.toList.map Char.toLower)

/-- A path relative to the input folder, as its list of components. -/
abbrev FilePath' := List String

mutual
/-- All file paths of the tree, as produced by `os.walk` (recursive mode,
lines 97-101): files of every directory, each path prefixed by the
directories leading to it. -/
def allFilePaths : DirTree → List FilePath'
  | .node fs subs => fs.map (fun n => [n]) ++ allFilePathsSubs subs
def allFilePathsSubs : List (String × DirTree) → List FilePath'
  | [] => []
  | (d, t) :: rest =>
      (allFilePaths t).map (fun p => d :: p) ++ allFilePathsSubs rest
end

/-- Immediate file paths, as produced by `os.listdir` (non-recursive mode,
lines 102-107); per the collaborator contract of the spec the listing
primitive returns file paths. -/
def immediateFiles (t : DirTree) : List FilePath' :=
  t.files.map (fun n => [n])

/-- The file-name component a candidate path is filtered on. -/
def fileNameOf (p : FilePath') : String := p.getLastD ""

/-- Candidate paths before filtering, by mode. -/
def candidatePaths (recursive : Bool) (t : DirTree) : List FilePath' :=
  if recursive then allFilePaths t else immediateFiles t

/-- `XMLCombiner.get_xml_files` (lines 93-110): keep the candidates whose
file name passes `isXmlName`, and return them sorted; `sorted` over `Path`
values compares the tuples of path components, the lexicographic order on
`List String`. -/
def getXmlFiles (recursive : Bool) (t : DirTree) : List FilePath' :=
  List.insertionSort (· ≤ ·)
    ((candidatePaths recursive t).filter (fun p => isXmlName (fileNameOf p)))

/-- `XMLCombiner.run` (lines 343-346) over a modelled filesystem: discovery
feeds `combine_xml_files`, and only on its success is
`save_combined_xml` reached; `writeOk` models whether the write to the
output path succeeds, and the second component is the state serialized into
the output file, `none` when no output file is produced. -/
def runCombiner (cfg : Config) (tree : DirTree)
    (contents : FilePath' → XMLFile) (writeOk : Bool) :
    Bool × Option CombinerState :=
  let files := (getXmlFiles cfg.recursive tree).map contents
  let r := combineXmlFiles cfg files
  if r.1 then (writeOk, if writeOk then some r.2 else none)
  else (false, none)

/-- Exit code of `main` (main.py lines 95-97): 0 on `run()` success, else
1. -/
def mainExitCode (cfg : Config) (tree : DirTree)
    (contents : FilePath' → XMLFile) (writeOk : Bool) : Nat :=
  if (runCombiner cfg tree contents writeOk).1 then 0 else 1

/-- The argparse defaults of main.py (lines 36-78): root element name
"combined", non-recursive, no schema, no dedup, preserve mode, three
retries. -/
def defaultConfig : Config :=
  { rootElementName := "combined", recursive := false, validateSchema := none,
    deduplicate := false, preserveStructure := true, maxRetries := 3 }

/-- The value carried by an outcome, whether the call returned (`ok`) or
raised (`error`): the mutations live on the shared object either way. -/
def carriedVal {α : Type _} : Except α α → α
  | .ok a => a
  | .error a => a

end XmlCombiner

namespace XmlCombiner

theorem singleAttempt_eq_stdParse (cfg : Config) (st : CombinerState)
    (f : XMLFile) : singleAttempt cfg st f = stdParse cfg st f := by
  unfold singleAttempt
  cases saxParse f with
  | none => rfl
  | some roots => simp

theorem stdParse_of_etParse_none {cfg : Config} {st : CombinerState}
    {f : XMLFile} (h : etParse f = none) : stdParse cfg st f = .error st := by
  unfold stdParse
  rw [h]

theorem attemptLoop_of_error_self {cfg : Config} {st : CombinerState}
    {f : XMLFile} (h : singleAttempt cfg st f = .error st) :
    ∀ n, attemptLoop cfg f st n = (false, st, n)
  | 0 => rfl
  | n + 1 => by
      simp [attemptLoop, h, attemptLoop_of_error_self h n]

/-- Equality of the two per-run counters between states. -/
def countersEq (a b : CombinerState) : Prop :=
  a.processedFiles = b.processedFiles ∧ a.failedFiles = b.failedFiles

theorem countersEq_refl (a : CombinerState) : countersEq a a := ⟨rfl, rfl⟩

theorem countersEq_trans {a b c : CombinerState} (h1 : countersEq a b)
    (h2 : countersEq b c) : countersEq a c :=
  ⟨h1.1.trans h2.1, h1.2.trans h2.2⟩

theorem addChildStep_counters (cfg : Config) (st : CombinerState)
    (c : Element) : countersEq (addChildStep cfg st c) st := by
  unfold addChildStep countersEq
  split
  · exact ⟨rfl, rfl⟩
  · split <;> exact ⟨rfl, rfl⟩

theorem foldl_addChildStep_counters (cfg : Config) :
    ∀ (l : List Element) (st : CombinerState),
      countersEq (l.foldl (addChildStep cfg) st) st
  | [], st => countersEq_refl st
  | c :: l, st =>
      countersEq_trans (foldl_addChildStep_counters cfg l (addChildStep cfg st c))
        (addChildStep_counters cfg st c)

theorem addElementWithStructure_counters (cfg : Config) (st : CombinerState)
    (e : Element) :
    countersEq (carriedVal (addElementWithStructure cfg st e)) st := by
  unfold addElementWithStructure
  split
  · exact countersEq_refl st
  · split
    · dsimp only
      split <;> exact ⟨rfl, rfl⟩
    · dsimp only
      split <;> exact ⟨rfl, rfl⟩

theorem addElementChildren_counters (cfg : Config) (st : CombinerState)
    (e : Element) :
    countersEq (carriedVal (addElementChildren cfg st e)) st := by
  unfold addElementChildren
  split
  · exact ⟨rfl, rfl⟩
  · exact foldl_addChildStep_counters cfg e.children _

theorem stdParse_counters (cfg : Config) (st : CombinerState) (f : XMLFile) :
    countersEq (carriedVal (stdParse cfg st f)) st := by
  unfold stdParse
  cases he : etParse f with
  | none => exact countersEq_refl st
  | some root =>
      dsimp only
      cases hr : registerNamespaces root st.nsMap with
      | error m1 => exact ⟨rfl, rfl⟩
      | ok m1 =>
          dsimp only
          split
          · exact addElementWithStructure_counters cfg _ root
          · exact addElementChildren_counters cfg _ root

theorem singleAttempt_counters (cfg : Config) (st : CombinerState)
    (f : XMLFile) :
    countersEq (carriedVal (singleAttempt cfg st f)) st := by
  rw [singleAttempt_eq_stdParse]
  exact stdParse_counters cfg st f

theorem attemptLoop_counters (cfg : Config) (f : XMLFile) :
    ∀ (n : Nat) (st : CombinerState),
      countersEq (attemptLoop cfg f st n).2.1 st
  | 0, st => countersEq_refl st
  | n + 1, st => by
      have hc := singleAttempt_counters cfg st f
      cases hs : singleAttempt cfg st f with
      | ok s =>
          simp only [attemptLoop, hs]
          rw [hs] at hc
          exact hc
      | error s1 =>
          simp only [attemptLoop, hs]
          rw [hs] at hc
          exact countersEq_trans (attemptLoop_counters cfg f n s1) hc

theorem processXmlFile_counters (cfg : Config) (st : CombinerState)
    (f : XMLFile) : countersEq (processXmlFile cfg st f).2.1 st := by
  unfold processXmlFile
  by_cases hv : validateXml cfg f = true
  · simp only [hv, if_true]
    exact attemptLoop_counters cfg f _ st
  · simp only [hv, if_false, Bool.false_eq_true]
    exact countersEq_refl st

theorem processAll_counters (cfg : Config) :
    ∀ (l : List XMLFile) (st : CombinerState),
      (processAll cfg st l).processedFiles + (processAll cfg st l).failedFiles
        = st.processedFiles + st.failedFiles + l.length
  | [], st => rfl
  | f :: l, st => by
      obtain ⟨h1, h2⟩ := processXmlFile_counters cfg st f
      simp only [processAll]
      split
      · rw [processAll_counters cfg l]
        simp only [List.length_cons]
        omega
      · rw [processAll_counters cfg l]
        simp only [List.length_cons]
        omega

theorem processAll_append (cfg : Config) :
    ∀ (l1 l2 : List XMLFile) (st : CombinerState),
      processAll cfg st (l1 ++ l2)
        = processAll cfg (processAll cfg st l1) l2
  | [], l2, st => rfl
  | f :: l1, l2, st => by
      simp only [List.cons_append, processAll]
      exact processAll_append cfg l1 l2 _

end XmlCombiner

namespace XmlCombiner

theorem addElementWithStructure_error_shape {cfg : Config}
    {st s : CombinerState} {e : Element}
    (h : addElementWithStructure cfg st e = .error s) :
    s.rootChildren = st.rootChildren ∧ countersEq s st ∧
      (cfg.deduplicate = false → s.seenElements = st.seenElements) := by
  unfold addElementWithStructure at h
  split at h
  · exact absurd h (by simp)
  · split at h
    · rename_i hdd
      dsimp only at h
      split at h
      · simp only [Except.error.injEq] at h
        subst h
        refine ⟨rfl, ⟨rfl, rfl⟩, fun hc => ?_⟩
        rw [hc] at hdd
        cases hdd
      · simp at h
    · dsimp only at h
      split at h
      · simp only [Except.error.injEq] at h
        subst h
        exact ⟨rfl, ⟨rfl, rfl⟩, fun _ => rfl⟩
      · simp at h

theorem addElementChildren_error_shape {cfg : Config}
    {st s : CombinerState} {e : Element}
    (h : addElementChildren cfg st e = .error s) :
    s.rootChildren = st.rootChildren ∧ countersEq s st ∧
      s.seenElements = st.seenElements := by
  unfold addElementChildren at h
  split at h
  · simp only [Except.error.injEq] at h
    subst h
    exact ⟨rfl, ⟨rfl, rfl⟩, rfl⟩
  · simp at h

theorem singleAttempt_error_shape {cfg : Config} {st s : CombinerState}
    {f : XMLFile} (h : singleAttempt cfg st f = .error s) :
    s.rootChildren = st.rootChildren ∧ countersEq s st ∧
      (cfg.deduplicate = false → s.seenElements = st.seenElements) := by
  rw [singleAttempt_eq_stdParse] at h
  unfold stdParse at h
  cases he : etParse f with
  | none =>
      rw [he] at h
      simp only [Except.error.injEq] at h
      subst h
      exact ⟨rfl, countersEq_refl st, fun _ => rfl⟩
  | some root =>
      rw [he] at h
      dsimp only at h
      cases hr : registerNamespaces root st.nsMap with
      | error m1 =>
          rw [hr] at h
          simp only [Except.error.injEq] at h
          subst h
          exact ⟨rfl, ⟨rfl, rfl⟩, fun _ => rfl⟩
      | ok m1 =>
          rw [hr] at h
          dsimp only at h
          split at h
          · obtain ⟨e1, e2, e3⟩ := addElementWithStructure_error_shape h
            exact ⟨e1, e2, e3⟩
          · obtain ⟨e1, e2, e3⟩ := addElementChildren_error_shape h
            exact ⟨e1, e2, fun _ => e3⟩

theorem attemptLoop_false_shape (cfg : Config) (f : XMLFile) :
    ∀ (n : Nat) (st : CombinerState),
      (attemptLoop cfg f st n).1 = false →
        (attemptLoop cfg f st n).2.1.rootChildren = st.rootChildren ∧
          countersEq (attemptLoop cfg f st n).2.1 st ∧
          (cfg.deduplicate = false →
            (attemptLoop cfg f st n).2.1.seenElements = st.seenElements)
  | 0, st, _ => ⟨rfl, countersEq_refl st, fun _ => rfl⟩
  | n + 1, st, h => by
      cases hs : singleAttempt cfg st f with
      | ok s => simp [attemptLoop, hs] at h
      | error s1 =>
          simp only [attemptLoop, hs] at h ⊢
          obtain ⟨e1, e2, e3⟩ := singleAttempt_error_shape hs
          obtain ⟨i1, i2, i3⟩ := attemptLoop_false_shape cfg f n s1 h
          exact ⟨i1.trans e1, countersEq_trans i2 e2,
            fun hc => (i3 hc).trans (e3 hc)⟩

theorem processXmlFile_false_shape (cfg : Config) (st : CombinerState)
    (f : XMLFile) (h : (processXmlFile cfg st f).1 = false) :
    (processXmlFile cfg st f).2.1.rootChildren = st.rootChildren ∧
      countersEq (processXmlFile cfg st f).2.1 st ∧
      (cfg.deduplicate = false →
        (processXmlFile cfg st f).2.1.seenElements = st.seenElements) := by
  unfold processXmlFile at h ⊢
  by_cases hv : validateXml cfg f = true
  · simp only [hv, if_true] at h ⊢
    exact attemptLoop_false_shape cfg f _ st h
  · rw [if_neg hv]
    exact ⟨rfl, countersEq_refl st, fun _ => rfl⟩

/-- C9, amended: a file whose processing returns failure leaves the
combined tree and both per-run counters exactly as they were, and — when
deduplication is off — the fingerprint set too, so the failed file
contributes nothing to the output.  The namespace map, however, is *not*
restored (and with deduplication on, neither is the fingerprint set):
`ET.register_namespace` raises its `ValueError` only after
`namespace_map[prefix] = uri` has run (and after the fingerprint was
added), so failing attempts can leave those mutations behind, as the
counterexample shows. -/
theorem c9_failed_file_preserves_tree_and_counters (cfg : Config)
    (st : CombinerState) (f : XMLFile) (st' : CombinerState) (n : Nat)
    (h : processXmlFile cfg st f = (false, st', n)) :
    st'.rootChildren = st.rootChildren ∧
      st'.processedFiles = st.processedFiles ∧
      st'.failedFiles = st.failedFiles ∧
      (cfg.deduplicate = false → st'.seenElements = st.seenElements) := by
  have h1 : (processXmlFile cfg st f).1 = false := by rw [h]
  have h2 : (processXmlFile cfg st f).2.1 = st' := by rw [h]
  obtain ⟨e1, ⟨e2, e3⟩, e4⟩ := processXmlFile_false_shape cfg st f h1
  rw [h2] at e1 e2 e3 e4
  exact ⟨e1, e2, e3, e4⟩

/-- Witness for C9's amended statement at a concrete failing input: the
file with the three `xmlns_ns1/2/3` attributes fails with the tree and the
counters untouched (its namespace-map mutation notwithstanding). -/
theorem c9_failed_file_preserves_tree_and_counters_witness :
    processXmlFile defaultConfig initState
        ⟨[Element.mk "r"
            [("xmlns_ns1", "u1"), ("xmlns_ns2", "u2"), ("xmlns_ns3", "u3")]
            none [Element.mk "c1" [] none [], Element.mk "c2" [] none []]],
          false⟩
      = (false,
          { initState with
              nsMap := [("ns1", "u1"), ("ns2", "u2"), ("ns3", "u3")] }, 3) ∧
      ({ initState with
          nsMap := [("ns1", "u1"), ("ns2", "u2"),
            ("ns3", "u3")] } : CombinerState).rootChildren
          = initState.rootChildren ∧
      ({ initState with
          nsMap := [("ns1", "u1"), ("ns2", "u2"),
            ("ns3", "u3")] } : CombinerState).processedFiles
          = initState.processedFiles ∧
      ({ initState with
          nsMap := [("ns1", "u1"), ("ns2", "u2"),
            ("ns3", "u3")] } : CombinerState).failedFiles
          = initState.failedFiles ∧
      (defaultConfig.deduplicate = false →
        ({ initState with
            nsMap := [("ns1", "u1"), ("ns2", "u2"),
              ("ns3", "u3")] } : CombinerState).seenElements
            = initState.seenElements) := by
  refine ⟨rfl, ?_⟩
  exact c9_failed_file_preserves_tree_and_counters defaultConfig initState
    ⟨[Element.mk "r"
        [("xmlns_ns1", "u1"), ("xmlns_ns2", "u2"), ("xmlns_ns3", "u3")]
        none [Element.mk "c1" [] none [], Element.mk "c2" [] none []]],
      false⟩
    { initState with nsMap := [("ns1", "u1"), ("ns2", "u2"), ("ns3", "u3")] }
    3 rfl

/-- C9 counterexample: per-file atomicity fails for the namespace map.  A
well-formed single-root file whose root carries the plain attributes
`xmlns_ns1="u1"`, `xmlns_ns2="u2"`, `xmlns_ns3="u3"` (which survive
parsing, unlike genuine declarations) derives the reserved prefixes
`ns1/ns2/ns3`; on each attempt one fresh binding is written into
`namespace_map` before `ET.register_namespace` raises `ValueError`, so
after three failed attempts the file is declared failed with the shared
namespace map mutated to three entries. -/
theorem c9_counterexample_nsmap_mutated_on_failure :
    processXmlFile defaultConfig initState
        ⟨[Element.mk "r"
            [("xmlns_ns1", "u1"), ("xmlns_ns2", "u2"), ("xmlns_ns3", "u3")]
            none [Element.mk "c1" [] none [], Element.mk "c2" [] none []]],
          false⟩
      = (false,
          { initState with
              nsMap := [("ns1", "u1"), ("ns2", "u2"), ("ns3", "u3")] }, 3) ∧
      (processXmlFile defaultConfig initState
          ⟨[Element.mk "r"
              [("xmlns_ns1", "u1"), ("xmlns_ns2", "u2"), ("xmlns_ns3", "u3")]
              none [Element.mk "c1" [] none [], Element.mk "c2" [] none []]],
            false⟩).2.1.nsMap
        ≠ initState.nsMap :=
  ⟨rfl, by decide⟩

end XmlCombiner

namespace XmlCombiner

theorem processAll_of_allFail {cfg : Config}
    (hf : ∀ st f, processXmlFile cfg st f = (false, st, 0)) :
    ∀ (l : List XMLFile) (st : CombinerState),
      processAll cfg st l
        = { st with failedFiles := st.failedFiles + l.length }
  | [], st => rfl
  | f :: l, st => by
      simp only [processAll, hf st f, Bool.false_eq_true, if_false]
      rw [processAll_of_allFail hf l]
      simp only [List.length_cons]
      congr 1
      omega

/-- C10: a zero or negative `max_retries` makes `range(self.max_retries)`
empty, so the retry loop body never executes, every file fails with zero
parse attempts, and a run over a non-empty directory fails with every file
counted as failed, regardless of the files' contents. -/
theorem c10_nonpositive_max_retries_fails_everything (cfg : Config)
    (h : cfg.maxRetries ≤ 0) :
    (∀ (st : CombinerState) (f : XMLFile),
        processXmlFile cfg st f = (false, st, 0)) ∧
      ∀ files : List XMLFile, files ≠ [] →
        (combineXmlFiles cfg files).1 = false ∧
          (combineXmlFiles cfg files).2.processedFiles = 0 ∧
          (combineXmlFiles cfg files).2.failedFiles = files.length := by
  have hall : ∀ (st : CombinerState) (f : XMLFile),
      processXmlFile cfg st f = (false, st, 0) := by
    intro st f
    unfold processXmlFile
    rw [Int.toNat_of_nonpos h]
    by_cases hv : validateXml cfg f = true
    · simp only [hv, if_true]
      rfl
    · simp only [hv, if_false, Bool.false_eq_true]
  refine ⟨hall, ?_⟩
  intro files hne
  have hempty : files.isEmpty = false := by
    cases files with
    | nil => exact absurd rfl hne
    | cons a l => rfl
  unfold combineXmlFiles
  rw [hempty]
  simp only [Bool.false_eq_true, if_false, processAll_of_allFail hall]
  exact ⟨by simp [initState], by simp [initState], by simp [initState]⟩

/-- Witness for C10: with `--max-retries 0`, a well-formed single-root file
still fails, and a one-file run fails with one failed file. -/
theorem c10_nonpositive_max_retries_fails_everything_witness :
    (∀ (st : CombinerState) (f : XMLFile),
        processXmlFile { defaultConfig with maxRetries := 0 } st f
          = (false, st, 0)) ∧
      ∀ files : List XMLFile, files ≠ [] →
        (combineXmlFiles { defaultConfig with maxRetries := 0 } files).1
            = false ∧
          (combineXmlFiles { defaultConfig with maxRetries := 0 }
              files).2.processedFiles = 0 ∧
          (combineXmlFiles { defaultConfig with maxRetries := 0 }
              files).2.failedFiles = files.length :=
  c10_nonpositive_max_retries_fails_everything
    { defaultConfig with maxRetries := 0 } (by decide)

/-- C5: a file whose every parse attempt raises is retried exactly
`max_retries` times (clamped at zero) and then declared failed; in the
per-file loop it only increments the failure counter, leaving the combined
tree, namespace map and fingerprint set untouched (a `ParseError` is raised
before any mutation), and processing of the remaining files continues from
that same state. -/
theorem c5_parse_failure_retried_then_isolated (cfg : Config)
    (st : CombinerState) (bad : XMLFile) (pre post : List XMLFile)
    (hv : validateXml cfg bad = true) (hp : etParse bad = none) :
    (∀ s : CombinerState,
        processXmlFile cfg s bad = (false, s, cfg.maxRetries.toNat)) ∧
      processAll cfg st (pre ++ bad :: post)
        = processAll cfg
            { processAll cfg st pre with
                failedFiles := (processAll cfg st pre).failedFiles + 1 }
            post := by
  have hfail : ∀ s : CombinerState,
      processXmlFile cfg s bad = (false, s, cfg.maxRetries.toNat) := by
    intro s
    have hsa : singleAttempt cfg s bad = .error s := by
      rw [singleAttempt_eq_stdParse]
      exact stdParse_of_etParse_none hp
    unfold processXmlFile
    rw [hv]
    simp only [if_true]
    exact attemptLoop_of_error_self hsa _
  refine ⟨hfail, ?_⟩
  rw [processAll_append]
  simp only [processAll, hfail (processAll cfg st pre), Bool.false_eq_true,
    if_false]

/-- Witness for C5: a malformed file under the default configuration is
attempted three times, fails, and contributes one failed-file count. -/
theorem c5_parse_failure_retried_then_isolated_witness :
    (∀ s : CombinerState,
        processXmlFile defaultConfig s ⟨[], true⟩
          = (false, s, defaultConfig.maxRetries.toNat)) ∧
      processAll defaultConfig initState ([] ++ ⟨[], true⟩ :: [])
        = processAll defaultConfig
            { processAll defaultConfig initState [] with
                failedFiles :=
                  (processAll defaultConfig initState []).failedFiles + 1 }
            [] :=
  c5_parse_failure_retried_then_isolated defaultConfig initState
    ⟨[], true⟩ [] [] rfl rfl

theorem combineXmlFiles_counters (cfg : Config) (files : List XMLFile) :
    (combineXmlFiles cfg files).2.processedFiles
        + (combineXmlFiles cfg files).2.failedFiles ≤ files.length ∧
      ((combineXmlFiles cfg files).1 = true ↔
        0 < (combineXmlFiles cfg files).2.processedFiles) := by
  unfold combineXmlFiles
  by_cases h : files.isEmpty = true
  · simp only [h, if_true]
    exact ⟨Nat.zero_le _, by simp [initState]⟩
  · simp only [h, if_false, Bool.false_eq_true]
    constructor
    · rw [processAll_counters cfg files initState]
      simp [initState]
    · exact decide_eq_true_iff

/-- C6: after a run the per-run counters satisfy
processed + failed ≤ discovered, and — given the output write succeeds —
the run succeeds exactly when the processed count is positive. -/
theorem c6_counter_invariant_and_success_iff (cfg : Config) (tree : DirTree)
    (contents : FilePath' → XMLFile) :
    (combineXmlFiles cfg
          ((getXmlFiles cfg.recursive tree).map contents)).2.processedFiles
        + (combineXmlFiles cfg
            ((getXmlFiles cfg.recursive tree).map contents)).2.failedFiles
        ≤ (getXmlFiles cfg.recursive tree).length ∧
      ((runCombiner cfg tree contents true).1 = true ↔
        0 < (combineXmlFiles cfg
              ((getXmlFiles cfg.recursive tree).map contents)).2.processedFiles)
    := by
  obtain ⟨h1, h2⟩ :=
    combineXmlFiles_counters cfg ((getXmlFiles cfg.recursive tree).map contents)
  constructor
  · rw [List.length_map] at h1
    exact h1
  · rw [← h2]
    unfold runCombiner
    cases hr : (combineXmlFiles cfg
        ((getXmlFiles cfg.recursive tree).map contents)).1 <;>
      simp [hr]

theorem getXmlFiles_eq_nil {r : Bool} {t : DirTree}
    (h : ∀ p ∈ candidatePaths r t, isXmlName (fileNameOf p) = false) :
    getXmlFiles r t = [] := by
  unfold getXmlFiles
  have hf : (candidatePaths r t).filter (fun p => isXmlName (fileNameOf p))
      = [] := by
    rw [List.filter_eq_nil_iff]
    intro a ha
    simp [h a ha]
  rw [hf]
  rfl

/-- C8: when no entry of the scanned directory scope has a name ending in
".xml" (case-insensitively), discovery returns nothing, the run fails before
serialization — no output file is produced for any write outcome — and the
process exits with code 1. -/
theorem c8_no_input_files_fails_without_output (cfg : Config)
    (tree : DirTree) (contents : FilePath' → XMLFile) (w : Bool)
    (h : ∀ p ∈ candidatePaths cfg.recursive tree,
        isXmlName (fileNameOf p) = false) :
    getXmlFiles cfg.recursive tree = [] ∧
      runCombiner cfg tree contents w = (false, none) ∧
      mainExitCode cfg tree contents w = 1 := by
  have hnil : getXmlFiles cfg.recursive tree = [] := getXmlFiles_eq_nil h
  have hrun : runCombiner cfg tree contents w = (false, none) := by
    unfold runCombiner
    rw [hnil]
    rfl
  refine ⟨hnil, hrun, ?_⟩
  unfold mainExitCode
  rw [hrun]
  rfl

/-- Witness for C8: a directory holding only "readme.txt". -/
theorem c8_no_input_files_fails_without_output_witness :
    getXmlFiles defaultConfig.recursive (.node ["readme.txt"] []) = [] ∧
      runCombiner defaultConfig (.node ["readme.txt"] [])
          (fun _ => ⟨[], true⟩) true = (false, none) ∧
      mainExitCode defaultConfig (.node ["readme.txt"] [])
          (fun _ => ⟨[], true⟩) true = 1 :=
  c8_no_input_files_fails_without_output defaultConfig
    (.node ["readme.txt"] []) (fun _ => ⟨[], true⟩) true (by decide)

/-- C2: the code never wraps a multi-root file.  On a file with two
top-level elements the SAX pre-pass raises before a second root is recorded
(so the wrapping branch of lines 211-259 is unreachable), the standard parse
raises as well, and after `max_retries` attempts the file is declared
failed and excluded: no `combined_wrapper` element — indeed no element at
all — reaches the combined tree, and the run over that single file fails
instead of reporting the file processed. -/
theorem c2_multi_root_file_fails_instead_of_wrapping :
    processXmlFile defaultConfig initState
        ⟨[Element.mk "a" [] none [], Element.mk "b" [] none []], false⟩
      = (false, initState, 3) ∧
      (combineXmlFiles defaultConfig
          [⟨[Element.mk "a" [] none [], Element.mk "b" [] none []],
            false⟩]).1 = false ∧
      (combineXmlFiles defaultConfig
          [⟨[Element.mk "a" [] none [], Element.mk "b" [] none []],
            false⟩]).2.rootChildren = [] :=
  ⟨rfl, rfl, rfl⟩

end XmlCombiner

namespace XmlCombiner

theorem dictInsert_map_fst_of_mem {m : List (String × String)} {k : String}
    (v : String) (h : m.any (fun p => p.1 == k) = true) :
    (dictInsert m k v).map Prod.fst = m.map Prod.fst := by
  unfold dictInsert
  rw [if_pos h, List.map_map]
  apply List.map_congr_left
  intro p _
  by_cases hpk : (p.1 == k) = true
  · simp only [Function.comp_apply, hpk, if_true]
    exact (eq_of_beq hpk).symm
  · simp only [Function.comp_apply, hpk, if_false, Bool.false_eq_true]

theorem dictInsert_nodup_keys {m : List (String × String)} (k v : String)
    (h : (m.map Prod.fst).Nodup) :
    ((dictInsert m k v).map Prod.fst).Nodup := by
  by_cases hk : m.any (fun p => p.1 == k) = true
  · rw [dictInsert_map_fst_of_mem v hk]
    exact h
  · unfold dictInsert
    rw [if_neg hk, List.map_append, List.nodup_append]
    refine ⟨h, List.nodup_singleton k, ?_⟩
    intro a ha hb
    simp only [List.map_cons, List.map_nil, List.mem_singleton] at hb
    subst hb
    apply hk
    rw [List.any_eq_true]
    obtain ⟨p, hp, hfst⟩ := List.mem_map.mp ha
    exact ⟨p, hp, by rw [hfst]; exact beq_self_eq_true a⟩

theorem registerOne_nodup_keys (m : List (String × String))
    (kv : String × String) (h : (m.map Prod.fst).Nodup) :
    ((carriedVal (registerOne m kv)).map Prod.fst).Nodup := by
  unfold registerOne
  cases xmlnsKey kv.1 with
  | none => exact h
  | some pfx =>
      dsimp only
      split
      · exact h
      · split <;> exact dictInsert_nodup_keys pfx kv.2 h

theorem registerAttrs_nodup_keys :
    ∀ (l : List (String × String)) (m : List (String × String)),
      (m.map Prod.fst).Nodup →
        ((carriedVal (registerAttrs m l)).map Prod.fst).Nodup
  | [], _, h => h
  | kv :: l, m, h => by
      have h1 := registerOne_nodup_keys m kv h
      cases hr : registerOne m kv with
      | ok m1 =>
          rw [hr] at h1
          simp only [registerAttrs, hr]
          exact registerAttrs_nodup_keys l m1 h1
      | error m1 =>
          rw [hr] at h1
          simp only [registerAttrs, hr]
          exact h1

theorem registerNodes_nodup_keys :
    ∀ (ns : List Element) (m : List (String × String)),
      (m.map Prod.fst).Nodup →
        ((carriedVal (registerNodes m ns)).map Prod.fst).Nodup
  | [], _, h => h
  | n :: ns, m, h => by
      have h1 := registerAttrs_nodup_keys n.attrib m h
      cases hr : registerAttrs m n.attrib with
      | ok m1 =>
          rw [hr] at h1
          simp only [registerNodes, hr]
          exact registerNodes_nodup_keys ns m1 h1
      | error m1 =>
          rw [hr] at h1
          simp only [registerNodes, hr]
          exact h1

theorem registerNamespaces_nodup_keys (e : Element)
    (m : List (String × String)) (h : (m.map Prod.fst).Nodup) :
    ((carriedVal (registerNamespaces e m)).map Prod.fst).Nodup := by
  unfold registerNamespaces
  have h1 := registerAttrs_nodup_keys e.attrib m h
  cases hr : registerAttrs m e.attrib with
  | ok m1 =>
      rw [hr] at h1
      exact registerNodes_nodup_keys (iterNodes e) m1 h1
  | error m1 =>
      rw [hr] at h1
      exact h1

theorem addChildStep_nsMap (cfg : Config) (st : CombinerState)
    (c : Element) : (addChildStep cfg st c).nsMap = st.nsMap := by
  unfold addChildStep
  split
  · rfl
  · split <;> rfl

theorem foldl_addChildStep_nsMap (cfg : Config) :
    ∀ (l : List Element) (st : CombinerState),
      (l.foldl (addChildStep cfg) st).nsMap = st.nsMap
  | [], _ => rfl
  | c :: l, st => by
      rw [List.foldl_cons, foldl_addChildStep_nsMap cfg l,
        addChildStep_nsMap cfg st c]

theorem addElementWithStructure_nsMap_nodup (cfg : Config)
    (st : CombinerState) (e : Element)
    (h : (st.nsMap.map Prod.fst).Nodup) :
    ((carriedVal (addElementWithStructure cfg st e)).nsMap.map
        Prod.fst).Nodup := by
  unfold addElementWithStructure
  split
  · exact h
  · split
    all_goals
      dsimp only
      have h1 := registerNamespaces_nodup_keys e _ h
      split
      · rename_i m1 hr
        rw [hr] at h1
        exact h1
      · rename_i m1 hr
        rw [hr] at h1
        exact h1

theorem addElementChildren_nsMap_nodup (cfg : Config) (st : CombinerState)
    (e : Element) (h : (st.nsMap.map Prod.fst).Nodup) :
    ((carriedVal (addElementChildren cfg st e)).nsMap.map Prod.fst).Nodup
    := by
  unfold addElementChildren
  have h1 := registerNamespaces_nodup_keys e st.nsMap h
  split
  · rename_i m1 hr
    rw [hr] at h1
    exact h1
  · rename_i m1 hr
    rw [hr] at h1
    rw [show (carriedVal (Except.ok
        (e.children.foldl (addChildStep cfg) { st with nsMap := m1 })) :
          CombinerState)
        = e.children.foldl (addChildStep cfg) { st with nsMap := m1 }
      from rfl, foldl_addChildStep_nsMap]
    exact h1

theorem stdParse_nsMap_nodup (cfg : Config) (st : CombinerState)
    (f : XMLFile) (h : (st.nsMap.map Prod.fst).Nodup) :
    ((carriedVal (stdParse cfg st f)).nsMap.map Prod.fst).Nodup := by
  unfold stdParse
  cases he : etParse f with
  | none => exact h
  | some root =>
      dsimp only
      have h1 := registerNamespaces_nodup_keys root st.nsMap h
      cases hr : registerNamespaces root st.nsMap with
      | error m1 =>
          rw [hr] at h1
          exact h1
      | ok m1 =>
          rw [hr] at h1
          dsimp only
          split
          · exact addElementWithStructure_nsMap_nodup cfg _ root h1
          · exact addElementChildren_nsMap_nodup cfg _ root h1

theorem singleAttempt_nsMap_nodup (cfg : Config) (st : CombinerState)
    (f : XMLFile) (h : (st.nsMap.map Prod.fst).Nodup) :
    ((carriedVal (singleAttempt cfg st f)).nsMap.map Prod.fst).Nodup := by
  rw [singleAttempt_eq_stdParse]
  exact stdParse_nsMap_nodup cfg st f h

theorem attemptLoop_nsMap_nodup (cfg : Config) (f : XMLFile) :
    ∀ (n : Nat) (st : CombinerState), (st.nsMap.map Prod.fst).Nodup →
      ((attemptLoop cfg f st n).2.1.nsMap.map Prod.fst).Nodup
  | 0, _, h => h
  | n + 1, st, h => by
      have h1 := singleAttempt_nsMap_nodup cfg st f h
      cases hs : singleAttempt cfg st f with
      | ok s =>
          simp only [attemptLoop, hs]
          rw [hs] at h1
          exact h1
      | error s1 =>
          simp only [attemptLoop, hs]
          rw [hs] at h1
          exact attemptLoop_nsMap_nodup cfg f n s1 h1

theorem processXmlFile_nsMap_nodup (cfg : Config) (st : CombinerState)
    (f : XMLFile) (h : (st.nsMap.map Prod.fst).Nodup) :
    ((processXmlFile cfg st f).2.1.nsMap.map Prod.fst).Nodup := by
  unfold processXmlFile
  by_cases hv : validateXml cfg f = true
  · simp only [hv, if_true]
    exact attemptLoop_nsMap_nodup cfg f _ st h
  · rw [if_neg hv]
    exact h

theorem processAll_nsMap_nodup (cfg : Config) :
    ∀ (l : List XMLFile) (st : CombinerState),
      (st.nsMap.map Prod.fst).Nodup →
        ((processAll cfg st l).nsMap.map Prod.fst).Nodup
  | [], _, h => h
  | f :: l, st, h => by
      have hf := processXmlFile_nsMap_nodup cfg st f h
      simp only [processAll]
      split
      · exact processAll_nsMap_nodup cfg l _ hf
      · exact processAll_nsMap_nodup cfg l _ hf

end XmlCombiner

namespace XmlCombiner

theorem isNsDecl_eq_false_of_ordinary {k : String}
    (h : ordinaryKey k = true) : isNsDecl k = false := by
  unfold ordinaryKey at h
  rw [Bool.not_eq_eq_eq_not, Bool.not_true] at h
  unfold isNsDecl
  cases hk : (k == "xmlns") with
  | true =>
      exfalso
      have := eq_of_beq hk
      subst this
      exact absurd h (by decide)
  | false =>
      cases h6 : (k.toList.take 6 == "xmlns:".toList) with
      | false => simp
      | true =>
          exfalso
          have h6' := eq_of_beq h6
          have h5 : k.toList.take 5 = "xmlns".toList := by
            have := congrArg (List.take 5) h6'
            rw [List.take_take] at this
            simpa using this
          rw [h5] at h
          simp at h

theorem attrsOrdinary_attrib {e : Element} (h : attrsOrdinary e = true) :
    e.attrib.all (fun kv => ordinaryKey kv.1) = true := by
  cases e with
  | mk t a x c =>
      simp only [attrsOrdinary, Bool.and_eq_true] at h
      exact h.1

theorem attrsOrdinary_childrenList {e : Element}
    (h : attrsOrdinary e = true) :
    attrsOrdinaryList e.children = true := by
  cases e with
  | mk t a x c =>
      simp only [attrsOrdinary, Bool.and_eq_true] at h
      exact h.2

mutual
theorem iterNodes_all_ordinary : ∀ e : Element, attrsOrdinary e = true →
    (iterNodes e).all (fun n => n.attrib.all (fun kv => ordinaryKey kv.1))
      = true
  | .mk t a x c, h => by
      simp only [attrsOrdinary, Bool.and_eq_true] at h
      simp only [iterNodes, List.all_cons, Bool.and_eq_true]
      exact ⟨h.1, iterNodesList_all_ordinary c h.2⟩
theorem iterNodesList_all_ordinary : ∀ l : List Element,
    attrsOrdinaryList l = true →
      (iterNodesList l).all
          (fun n => n.attrib.all (fun kv => ordinaryKey kv.1)) = true
  | [], _ => rfl
  | e :: rest, h => by
      simp only [attrsOrdinaryList, Bool.and_eq_true] at h
      simp only [iterNodesList, List.all_append, Bool.and_eq_true]
      exact ⟨iterNodes_all_ordinary e h.1, iterNodesList_all_ordinary rest h.2⟩
end

theorem xmlnsKey_eq_none_of_ordinary {k : String}
    (h : ordinaryKey k = true) : xmlnsKey k = none := by
  unfold ordinaryKey at h
  rw [Bool.not_eq_eq_eq_not, Bool.not_true] at h
  unfold xmlnsKey
  rw [h]
  simp

theorem registerOne_of_ordinary {kv : String × String}
    (h : ordinaryKey kv.1 = true) (m : List (String × String)) :
    registerOne m kv = .ok m := by
  unfold registerOne
  rw [xmlnsKey_eq_none_of_ordinary h]

theorem registerAttrs_of_ordinary :
    ∀ (l : List (String × String)) (m : List (String × String)),
      l.all (fun kv => ordinaryKey kv.1) = true → registerAttrs m l = .ok m
  | [], _, _ => rfl
  | kv :: l, m, h => by
      simp only [List.all_cons, Bool.and_eq_true] at h
      simp only [registerAttrs, registerOne_of_ordinary h.1 m]
      exact registerAttrs_of_ordinary l m h.2

theorem registerNodes_of_ordinary :
    ∀ (ns : List Element) (m : List (String × String)),
      ns.all (fun n => n.attrib.all (fun kv => ordinaryKey kv.1)) = true →
        registerNodes m ns = .ok m
  | [], _, _ => rfl
  | n :: ns, m, h => by
      simp only [List.all_cons, Bool.and_eq_true] at h
      simp only [registerNodes, registerAttrs_of_ordinary n.attrib m h.1]
      exact registerNodes_of_ordinary ns m h.2

theorem registerNamespaces_of_ordinary {e : Element}
    (h : attrsOrdinary e = true) (m : List (String × String)) :
    registerNamespaces e m = .ok m := by
  unfold registerNamespaces
  rw [registerAttrs_of_ordinary e.attrib m (attrsOrdinary_attrib h)]
  exact registerNodes_of_ordinary (iterNodes e) m (iterNodes_all_ordinary e h)

mutual
theorem stripNsDecls_eq_self : ∀ e : Element, attrsOrdinary e = true →
    stripNsDecls e = e
  | .mk t a x c, h => by
      simp only [attrsOrdinary, Bool.and_eq_true] at h
      simp only [stripNsDecls]
      rw [stripNsDeclsList_eq_self c h.2]
      rw [List.filter_eq_self.mpr]
      intro kv hkv
      rw [isNsDecl_eq_false_of_ordinary
        (List.all_eq_true.mp h.1 kv hkv)]
      rfl
theorem stripNsDeclsList_eq_self : ∀ l : List Element,
    attrsOrdinaryList l = true → stripNsDeclsList l = l
  | [], _ => rfl
  | e :: rest, h => by
      simp only [attrsOrdinaryList, Bool.and_eq_true] at h
      simp only [stripNsDeclsList]
      rw [stripNsDecls_eq_self e h.1, stripNsDeclsList_eq_self rest h.2]
end

mutual
theorem attrsOrdinary_strip_of_genuine : ∀ e : Element,
    genuineOnly e = true → attrsOrdinary (stripNsDecls e) = true
  | .mk t a x c, h => by
      simp only [genuineOnly, Bool.and_eq_true] at h
      simp only [stripNsDecls, attrsOrdinary, Bool.and_eq_true]
      constructor
      · rw [List.all_eq_true]
        intro kv hkv
        rw [List.mem_filter] at hkv
        have hnd : isNsDecl kv.1 = false := by
          have := hkv.2
          rwa [Bool.not_eq_eq_eq_not, Bool.not_true] at this
        have := List.all_eq_true.mp h.1 kv hkv.1
        rwa [hnd, Bool.false_or] at this
      · exact attrsOrdinaryList_strip_of_genuine c h.2
theorem attrsOrdinaryList_strip_of_genuine : ∀ l : List Element,
    genuineOnlyList l = true → attrsOrdinaryList (stripNsDeclsList l) = true
  | [], _ => rfl
  | e :: rest, h => by
      simp only [genuineOnlyList, Bool.and_eq_true] at h
      simp only [stripNsDeclsList, attrsOrdinaryList, Bool.and_eq_true]
      exact ⟨attrsOrdinary_strip_of_genuine e h.1,
        attrsOrdinaryList_strip_of_genuine rest h.2⟩
end

theorem etParse_some_inv {f : XMLFile} {root : Element}
    (h : etParse f = some root) :
    ∃ r0, f.roots = [r0] ∧ root = stripNsDecls r0 := by
  unfold etParse at h
  split at h
  · exact absurd h (by simp)
  · cases hroots : f.roots with
    | nil => rw [hroots] at h; exact absurd h (by simp)
    | cons a l =>
        cases l with
        | nil =>
            rw [hroots] at h
            simp only [Option.some.injEq] at h
            exact ⟨a, rfl, h.symm⟩
        | cons b l2 => rw [hroots] at h; exact absurd h (by simp)

theorem addElementWithStructure_nsMap_of_ordinary {cfg : Config}
    {st : CombinerState} {e : Element} (h : attrsOrdinary e = true) :
    (carriedVal (addElementWithStructure cfg st e)).nsMap = st.nsMap := by
  unfold addElementWithStructure
  split
  · rfl
  · split
    all_goals
      dsimp only
      rw [registerNamespaces_of_ordinary h]
      rfl

theorem addElementChildren_nsMap_of_ordinary {cfg : Config}
    {st : CombinerState} {e : Element} (h : attrsOrdinary e = true) :
    (carriedVal (addElementChildren cfg st e)).nsMap = st.nsMap := by
  unfold addElementChildren
  rw [registerNamespaces_of_ordinary h]
  exact foldl_addChildStep_nsMap cfg e.children _

theorem stdParse_nsMap_of_genuine (cfg : Config) {f : XMLFile}
    (hg : ∀ r ∈ f.roots, genuineOnly r = true) (st : CombinerState) :
    (carriedVal (stdParse cfg st f)).nsMap = st.nsMap := by
  unfold stdParse
  cases he : etParse f with
  | none => rfl
  | some root =>
      obtain ⟨r0, hr0, hstrip⟩ := etParse_some_inv he
      have hord : attrsOrdinary root = true := by
        rw [hstrip]
        exact attrsOrdinary_strip_of_genuine r0
          (hg r0 (by rw [hr0]; exact List.mem_singleton_self r0))
      dsimp only
      rw [registerNamespaces_of_ordinary hord]
      dsimp only
      split
      · exact addElementWithStructure_nsMap_of_ordinary hord
      · exact addElementChildren_nsMap_of_ordinary hord

theorem singleAttempt_nsMap_of_genuine (cfg : Config) {f : XMLFile}
    (hg : ∀ r ∈ f.roots, genuineOnly r = true) (st : CombinerState) :
    (carriedVal (singleAttempt cfg st f)).nsMap = st.nsMap := by
  rw [singleAttempt_eq_stdParse]
  exact stdParse_nsMap_of_genuine cfg hg st

theorem attemptLoop_nsMap_of_genuine (cfg : Config) {f : XMLFile}
    (hg : ∀ r ∈ f.roots, genuineOnly r = true) :
    ∀ (n : Nat) (st : CombinerState),
      (attemptLoop cfg f st n).2.1.nsMap = st.nsMap
  | 0, _ => rfl
  | n + 1, st => by
      have h1 := singleAttempt_nsMap_of_genuine cfg hg st
      cases hs : singleAttempt cfg st f with
      | ok s =>
          simp only [attemptLoop, hs]
          rw [hs] at h1
          exact h1
      | error s1 =>
          simp only [attemptLoop, hs]
          rw [hs] at h1
          rw [attemptLoop_nsMap_of_genuine cfg hg n s1]
          exact h1

theorem processXmlFile_nsMap_of_genuine (cfg : Config) {f : XMLFile}
    (hg : ∀ r ∈ f.roots, genuineOnly r = true) (st : CombinerState) :
    (processXmlFile cfg st f).2.1.nsMap = st.nsMap := by
  unfold processXmlFile
  by_cases hv : validateXml cfg f = true
  · simp only [hv, if_true]
    exact attemptLoop_nsMap_of_genuine cfg hg _ st
  · rw [if_neg hv]

theorem processAll_nsMap_of_genuine (cfg : Config) :
    ∀ (l : List XMLFile) (st : CombinerState),
      (∀ f ∈ l, ∀ r ∈ f.roots, genuineOnly r = true) →
        (processAll cfg st l).nsMap = st.nsMap
  | [], _, _ => rfl
  | f :: l, st, h => by
      have hf := processXmlFile_nsMap_of_genuine cfg
        (h f (List.mem_cons_self f l)) st
      have hrest : ∀ g ∈ l, ∀ r ∈ g.roots, genuineOnly r = true :=
        fun g hgmem => h g (List.mem_cons_of_mem f hgmem)
      simp only [processAll]
      split
      · rw [processAll_nsMap_of_genuine cfg l _ hrest]
        exact hf
      · rw [processAll_nsMap_of_genuine cfg l _ hrest]
        exact hf

/-- C1, amended: the namespace map does bind each prefix to at most one URI
(its keys stay duplicate-free over any run), but the first-seen URI of a
declared prefix is *not* retained in the output: ElementTree strips genuine
namespace declarations ("xmlns", "xmlns:p") from `attrib` while parsing, so
`_register_namespaces` never sees them and — for files whose remaining
attributes are ordinary names not beginning with "xmlns" — the namespace
map ends the run empty.  No first-registration-wins resolution (and no
warning) ever happens for declared prefixes; only plain attributes whose
literal name begins with "xmlns" can populate the map at all, and such
registrations raise `ValueError` after the dict write when the derived
prefix matches `ns` plus digits. -/
theorem c1_keys_unique_and_declarations_never_registered :
    (∀ (cfg : Config) (files : List XMLFile),
        ((combineXmlFiles cfg files).2.nsMap.map Prod.fst).Nodup) ∧
      ∀ (cfg : Config) (files : List XMLFile),
        (∀ f ∈ files, ∀ r ∈ f.roots, genuineOnly r = true) →
          (combineXmlFiles cfg files).2.nsMap = [] := by
  constructor
  · intro cfg files
    unfold combineXmlFiles
    by_cases h : files.isEmpty = true
    · simp only [h, if_true]
      exact List.nodup_nil
    · simp only [h, if_false, Bool.false_eq_true]
      exact processAll_nsMap_nodup cfg files initState List.nodup_nil
  · intro cfg files hg
    unfold combineXmlFiles
    by_cases h : files.isEmpty = true
    · simp only [h, if_true]
      rfl
    · simp only [h, if_false, Bool.false_eq_true]
      exact processAll_nsMap_of_genuine cfg files initState hg

/-- Witness for C1's amended statement at the two-file collision input:
keys are duplicate-free (vacuously, the map is empty) and, since both files
carry only genuine declarations, the final namespace map is empty. -/
theorem c1_keys_unique_and_declarations_never_registered_witness :
    ((combineXmlFiles defaultConfig
        [⟨[Element.mk "r1" [("xmlns:ns1", "uriA")] none []], false⟩,
         ⟨[Element.mk "r2" [("xmlns:ns1", "uriB")] none []],
           false⟩]).2.nsMap.map Prod.fst).Nodup ∧
      (combineXmlFiles defaultConfig
          [⟨[Element.mk "r1" [("xmlns:ns1", "uriA")] none []], false⟩,
           ⟨[Element.mk "r2" [("xmlns:ns1", "uriB")] none []],
             false⟩]).2.nsMap = [] :=
  ⟨c1_keys_unique_and_declarations_never_registered.1 defaultConfig _,
    c1_keys_unique_and_declarations_never_registered.2 defaultConfig
      [⟨[Element.mk "r1" [("xmlns:ns1", "uriA")] none []], false⟩,
       ⟨[Element.mk "r2" [("xmlns:ns1", "uriB")] none []], false⟩]
      (by decide)⟩

/-- C1 counterexample: two files binding prefix `ns1` to different URIs
through genuine `xmlns:ns1` declarations.  ElementTree strips those
declaration attributes during parsing (the parsed roots have empty
`attrib`), so `_register_namespaces` registers nothing: the run ends with
an *empty* namespace map — the first-seen URI `uriA` is not the one
associated with `ns1` in the final output, because no URI is. -/
theorem c1_counterexample_first_seen_uri_not_retained :
    (combineXmlFiles defaultConfig
        [⟨[Element.mk "r1" [("xmlns:ns1", "uriA")] none []], false⟩,
         ⟨[Element.mk "r2" [("xmlns:ns1", "uriB")] none []],
           false⟩]).2.nsMap = [] ∧
      lookupNs
          (combineXmlFiles defaultConfig
            [⟨[Element.mk "r1" [("xmlns:ns1", "uriA")] none []], false⟩,
             ⟨[Element.mk "r2" [("xmlns:ns1", "uriB")] none []],
               false⟩]).2.nsMap "ns1"
        ≠ some "uriA" :=
  ⟨rfl, by decide⟩

end XmlCombiner
namespace XmlCombiner

mutual
theorem elementToString_congr : ∀ e1 e2 : Element, sameContent e1 e2 = true →
    elementToString e1 = elementToString e2
  | .mk t1 a1 x1 c1, .mk t2 a2 x2 c2, h => by
      simp only [sameContent, Bool.and_eq_true] at h
      obtain ⟨⟨⟨ht, hx⟩, ha⟩, hc⟩ := h
      have hcs := childStrings_congr c1 c2 hc
      simp only [elementToString]
      rw [eq_of_beq ht, eq_of_beq hx, eq_of_beq ha, hcs]
theorem childStrings_congr : ∀ l1 l2 : List Element,
    sameContentList l1 l2 = true → childStrings l1 = childStrings l2
  | [], [], _ => rfl
  | [], _ :: _, h => by simp [sameContentList] at h
  | _ :: _, [], h => by simp [sameContentList] at h
  | e1 :: r1, e2 :: r2, h => by
      simp only [sameContentList, Bool.and_eq_true] at h
      simp only [childStrings]
      rw [elementToString_congr e1 e2 h.1, childStrings_congr r1 r2 h.2]
end

/-- C3, amended: structural identity — same tag, same text with absent text
identified with empty (the code hashes `elem.text or ''`), same attributes
up to order, and recursively identical children in order — implies equal
fingerprints.  Only this direction survives: the converse is refuted by the
collision exhibited separately, since the canonical string is built with the
separators "|" and ":" which may themselves occur in text. -/
theorem c3_structural_identity_implies_equal_hash (e1 e2 : Element)
    (h : sameContent e1 e2 = true) : getElementHash e1 = getElementHash e2 :=
  elementToString_congr e1 e2 h

/-- Witness for C3's amended direction: attribute order and a `None` versus
empty text do not change the fingerprint. -/
theorem c3_structural_identity_implies_equal_hash_witness :
    getElementHash
        (Element.mk "t" [("b", "2"), ("a", "1")] none
          [Element.mk "c" [] (some "z") []])
      = getElementHash
          (Element.mk "t" [("a", "1"), ("b", "2")] (some "")
            [Element.mk "c" [] (some "z") []]) :=
  c3_structural_identity_implies_equal_hash _ _ (by decide)

/-- C3 counterexample: the claimed "only if" direction fails.  A leaf with
text "x|b:y" and an element with text "x" and one child `<b>` with text "y"
have the same canonical string "a:x|b:y", hence the same MD5 fingerprint,
yet differ in text and in descendant structure. -/
theorem c3_counterexample_hash_collision :
    getElementHash (Element.mk "a" [] (some "x|b:y") [])
        = getElementHash
            (Element.mk "a" [] (some "x") [Element.mk "b" [] (some "y") []]) ∧
      sameContent (Element.mk "a" [] (some "x|b:y") [])
          (Element.mk "a" [] (some "x") [Element.mk "b" [] (some "y") []])
        = false ∧
      (Element.mk "a" [] (some "x|b:y") []).text
        ≠ (Element.mk "a" [] (some "x")
            [Element.mk "b" [] (some "y") []]).text ∧
      (Element.mk "a" [] (some "x|b:y") []).children.length
        ≠ (Element.mk "a" [] (some "x")
            [Element.mk "b" [] (some "y") []]).children.length :=
  ⟨rfl, by decide, by decide, by decide⟩

end XmlCombiner

namespace XmlCombiner

theorem addChildStep_eq_nodedup {cfg : Config} (hd : cfg.deduplicate = false)
    (st : CombinerState) (c : Element) :
    addChildStep cfg st c
      = { st with rootChildren := st.rootChildren ++ [c] } := by
  unfold addChildStep
  rw [hd]
  simp

theorem foldl_addChildStep_eq_nodedup {cfg : Config}
    (hd : cfg.deduplicate = false) :
    ∀ (l : List Element) (st : CombinerState),
      l.foldl (addChildStep cfg) st
        = { st with rootChildren := st.rootChildren ++ l }
  | [], st => by simp
  | c :: l, st => by
      rw [List.foldl_cons, addChildStep_eq_nodedup hd,
        foldl_addChildStep_eq_nodedup hd l]
      simp

theorem addElementWithStructure_eq_nodedup {cfg : Config}
    {st : CombinerState} {e : Element} (hd : cfg.deduplicate = false)
    (ha : attrsOrdinary e = true) :
    addElementWithStructure cfg st e
      = .ok { st with rootChildren := st.rootChildren ++ [e] } := by
  unfold addElementWithStructure
  rw [hd]
  simp only [Bool.false_and, Bool.false_eq_true, if_false]
  rw [registerNamespaces_of_ordinary ha]

theorem addElementChildren_eq_nodedup {cfg : Config}
    {st : CombinerState} {e : Element} (hd : cfg.deduplicate = false)
    (ha : attrsOrdinary e = true) :
    addElementChildren cfg st e
      = .ok { st with rootChildren := st.rootChildren ++ e.children } := by
  unfold addElementChildren
  rw [registerNamespaces_of_ordinary ha]
  dsimp only
  rw [foldl_addChildStep_eq_nodedup hd]

theorem processXmlFile_success_state {cfg : Config} {st st' : CombinerState}
    {f : XMLFile} (hv : validateXml cfg f = true)
    (hs : stdParse cfg st f = .ok st') (hn : cfg.maxRetries.toNat ≠ 0) :
    processXmlFile cfg st f = (true, st', 1) := by
  unfold processXmlFile
  rw [hv]
  simp only [if_true]
  obtain ⟨n, hn'⟩ := Nat.exists_eq_succ_of_ne_zero hn
  rw [hn']
  simp [attemptLoop, singleAttempt_eq_stdParse, hs]

theorem processXmlFile_singleRoot_ordinary (cfg : Config)
    (hs : cfg.validateSchema = none) (hn : cfg.maxRetries.toNat ≠ 0)
    (hd : cfg.deduplicate = false) (st : CombinerState) (r : Element)
    (ha : attrsOrdinary r = true) :
    processXmlFile cfg st ⟨[r], false⟩
      = (true,
          (if cfg.preserveStructure then
            { st with rootChildren := st.rootChildren ++ [r] }
          else { st with rootChildren := st.rootChildren ++ r.children }),
          1) := by
  have he : etParse ⟨[r], false⟩ = some r := by
    unfold etParse
    simp [stripNsDecls_eq_self r ha]
  have hstd : stdParse cfg st ⟨[r], false⟩
      = .ok (if cfg.preserveStructure then
          { st with rootChildren := st.rootChildren ++ [r] }
        else { st with rootChildren := st.rootChildren ++ r.children }) := by
    unfold stdParse
    rw [he]
    dsimp only
    rw [registerNamespaces_of_ordinary ha]
    dsimp only
    split
    · rw [addElementWithStructure_eq_nodedup hd ha]
    · rw [addElementChildren_eq_nodedup hd ha]
  refine processXmlFile_success_state ?_ hstd hn
  unfold validateXml
  rw [hs]

/-- C4: with deduplication off, for files whose attributes are ordinary
names (none beginning with the characters "xmlns" — the shape on which
namespace registration cannot raise), preserve mode appends each
successfully parsed file's root as exactly one direct child of the combined
root with its subtree intact, flatten mode appends only the direct
children: for two single-root files whose roots carry two children each,
preserve mode yields the two original roots as the combined root's children
(each still with two children) and flatten mode yields four direct
children. -/
theorem c4_preserve_keeps_roots_flatten_splices (r1 r2 : Element)
    (h1 : r1.children.length = 2) (h2 : r2.children.length = 2)
    (ha1 : attrsOrdinary r1 = true) (ha2 : attrsOrdinary r2 = true) :
    (combineXmlFiles defaultConfig
        [⟨[r1], false⟩, ⟨[r2], false⟩]).2.rootChildren = [r1, r2] ∧
      (∀ c ∈ (combineXmlFiles defaultConfig
          [⟨[r1], false⟩, ⟨[r2], false⟩]).2.rootChildren,
        c.children.length = 2) ∧
      (combineXmlFiles { defaultConfig with preserveStructure := false }
          [⟨[r1], false⟩, ⟨[r2], false⟩]).2.rootChildren.length = 4 := by
  have honeP : ∀ (st : CombinerState) (r : Element),
      attrsOrdinary r = true →
        processXmlFile defaultConfig st ⟨[r], false⟩
          = (true, { st with rootChildren := st.rootChildren ++ [r] }, 1) := by
    intro st r ha
    have h := processXmlFile_singleRoot_ordinary defaultConfig rfl
      (by decide) rfl st r ha
    simpa using h
  have honeF : ∀ (st : CombinerState) (r : Element),
      attrsOrdinary r = true →
        processXmlFile { defaultConfig with preserveStructure := false } st
            ⟨[r], false⟩
          = (true,
              { st with rootChildren := st.rootChildren ++ r.children },
              1) := by
    intro st r ha
    have h := processXmlFile_singleRoot_ordinary
      { defaultConfig with preserveStructure := false } rfl
      (by decide) rfl st r ha
    simpa using h
  have hpre : (combineXmlFiles defaultConfig
      [⟨[r1], false⟩, ⟨[r2], false⟩]).2.rootChildren = [r1, r2] := by
    simp [combineXmlFiles, processAll, honeP _ _ ha1, honeP _ _ ha2,
      initState]
  have hflat : (combineXmlFiles
      { defaultConfig with preserveStructure := false }
      [⟨[r1], false⟩, ⟨[r2], false⟩]).2.rootChildren
        = r1.children ++ r2.children := by
    simp [combineXmlFiles, processAll, honeF _ _ ha1, honeF _ _ ha2,
      initState]
  refine ⟨hpre, ?_, ?_⟩
  · intro c hc
    rw [hpre] at hc
    simp only [List.mem_cons, List.not_mem_nil, or_false] at hc
    rcases hc with hc | hc
    · rw [hc]; exact h1
    · rw [hc]; exact h2
  · rw [hflat, List.length_append, h1, h2]

/-- Witness for C4 at two concrete two-child roots with no attributes. -/
theorem c4_preserve_keeps_roots_flatten_splices_witness :
    (combineXmlFiles defaultConfig
        [⟨[Element.mk "ra" [] none
            [Element.mk "c1" [] none [], Element.mk "c2" [] none []]],
          false⟩,
         ⟨[Element.mk "rb" [] none
            [Element.mk "c3" [] none [], Element.mk "c4" [] none []]],
          false⟩]).2.rootChildren
        = [Element.mk "ra" [] none
            [Element.mk "c1" [] none [], Element.mk "c2" [] none []],
           Element.mk "rb" [] none
            [Element.mk "c3" [] none [], Element.mk "c4" [] none []]] ∧
      (∀ c ∈ (combineXmlFiles defaultConfig
          [⟨[Element.mk "ra" [] none
              [Element.mk "c1" [] none [], Element.mk "c2" [] none []]],
            false⟩,
           ⟨[Element.mk "rb" [] none
              [Element.mk "c3" [] none [], Element.mk "c4" [] none []]],
            false⟩]).2.rootChildren,
        c.children.length = 2) ∧
      (combineXmlFiles { defaultConfig with preserveStructure := false }
          [⟨[Element.mk "ra" [] none
              [Element.mk "c1" [] none [], Element.mk "c2" [] none []]],
            false⟩,
           ⟨[Element.mk "rb" [] none
              [Element.mk "c3" [] none [], Element.mk "c4" [] none []]],
            false⟩]).2.rootChildren.length = 4 :=
  c4_preserve_keeps_roots_flatten_splices _ _ rfl rfl (by decide) (by decide)

/-- C7: file discovery returns a list sorted in the lexicographic order on
paths (so merge order is lexicographic by path), containing exactly the
candidate paths of the scanned scope — immediate directory when
non-recursive, the whole tree when recursive — whose file name ends in
".xml" case-insensitively. -/
theorem c7_discovery_sorted_and_complete (r : Bool) (t : DirTree) :
    List.Sorted (· ≤ ·) (getXmlFiles r t) ∧
      ∀ p : FilePath', p ∈ getXmlFiles r t ↔
        p ∈ candidatePaths r t ∧ isXmlName (fileNameOf p) = true := by
  constructor
  · exact List.sorted_insertionSort _ _
  · intro p
    unfold getXmlFiles
    rw [(List.perm_insertionSort _ _).mem_iff, List.mem_filter]

end XmlCombiner
